import Mathlib

/-!
Verification development for the Physical AI Humanoid textbook repository.

The repository's substance is a Retrieval-Augmented Generation (RAG) answer
pipeline (retriever, context assembler, grounded answerer, rate governor,
response cache) together with frontend UI components (chat form, quiz widget)
and an API client.  The backend pipeline services themselves are not present
in the repository snapshot (only their database schema, implementation plans
and frontend callers are), so those components are modelled from the spec and
clearly marked as such; the frontend components and the API client are embedded
directly from their TypeScript sources.
-/

namespace Frontend

/-- Request body built by `api.chat` in `src/frontend/src/utils/api.ts`
(lines 31-49): it POSTs a JSON object with exactly the fields `question` and
`conversation_id`, where `conversation_id` defaults to
`"chat-" ++ Date.now()` when the caller passes none.  The body is embedded as
an ordered list of (field name, string value) pairs. -/
def chatRequestJson (question : String) (conversationId : Option String)
    (now : Nat) : List (String × String) :=
  [("question", question),
   ("conversation_id", conversationId.getD ("chat-" ++ toString now))]

/-- Response handling of `api.chat`: a non-ok HTTP response raises an error
carrying the error body's `detail` field (or the fixed message
"Chat request failed" when `detail` is absent); an ok response's parsed JSON
body is returned unchanged. -/
def chatResult (ok : Bool) (body : String) (errorDetail : Option String) :
    Except String String :=
  if ok then Except.ok body else Except.error (errorDetail.getD "Chat request failed")

/-- Request fields of the spec's inbound ask operation, following the spec's
words (section 6, Inbound call): a question with optional selected_text,
optional user_id and optional chapter_scope.  Used only to compare the spec's
claimed interface against the request the code actually sends. -/
def specAskRequestFields : List String :=
  ["question", "selected_text", "user_id", "chapter_scope"]

/-- Drop the leading whitespace characters of a character list. -/
def dropLeadingWs : List Char → List Char
  | [] => []
  | c :: cs => if c.isWhitespace then dropLeadingWs cs else c :: cs

/-- JavaScript `String.prototype.trim`, embedded over the string's character
list (whitespace modelled as the ASCII whitespace characters): leading and
trailing whitespace is removed. -/
def jsTrim (s : String) : String :=
  ⟨dropLeadingWs ((dropLeadingWs s.data.reverse).reverse)⟩

/-- Form-submission guard of the ChatBot component
(`handleSubmit` in `src/frontend/src/components/ChatBot/index.tsx`): when the
trimmed question is empty the handler returns without issuing any request
(the JS emptiness test `!question.trim()` holds exactly for the empty trimmed
string); otherwise it calls `api.chat(question)` with the question text
unchanged.  The result is the question text sent to the chat endpoint, or
`none` when no request is issued. -/
def chatSubmit (question : String) : Option String :=
  if jsTrim question = "" then none else some question

end Frontend

namespace QuizUI

/-- Quiz question shape from `src/frontend/src/types/quiz.ts`: question text,
answer options, 0-based index of the correct option, and an explanation. -/
structure QuizQuestion where
  question : String
  options : List String
  correctAnswer : Nat
  explanation : String
deriving DecidableEq

/-- Entry validation of the `Quiz` component: a questions list whose length is
below 5 or above 10 throws (with the component's error message) before any
state is initialised or any question rendered; otherwise the component
proceeds with the given questions. -/
def quizInit (questions : List QuizQuestion) :
    Except String (List QuizQuestion) :=
  if questions.length < 5 ∨ 10 < questions.length then
    Except.error ("Quiz component requires 5-10 questions. Received "
      ++ toString questions.length ++ " questions.")
  else
    Except.ok questions

/-- Lookup in the user-answers map (the component's `userAnswers : Map`),
embedded as an association list from question index to selected option index;
`Map.get` on an absent key yields `undefined`, embedded as `none`. -/
def ansLookup : List (Nat × Nat) → Nat → Option Nat
  | [], _ => none
  | (k, v) :: rest, i => if k = i then some v else ansLookup rest i

/-- Score loop of the component's `handleSubmit`: `forEach` over the displayed
questions with index, incrementing `correctCount` exactly when
`userAnswers.get(index) === question.correctAnswer` (in JS, `undefined === n`
is false, embedded by the `Option` equality). The first argument is the
running index. -/
def computeScore : Nat → List QuizQuestion → List (Nat × Nat) → Nat
  | _, [], _ => 0
  | i, q :: qs, ans =>
    (if ansLookup ans i = some q.correctAnswer then 1 else 0)
      + computeScore (i + 1) qs ans

/-- The component's `handleSubmit`: returns without scoring unless
`allAnswered` holds, i.e. unless the number of recorded answers equals the
number of displayed questions (the JS `Map.size` is the association list's
length, keys being distinct by `Map` semantics); when it holds, the computed
score is produced. -/
def quizHandleSubmit (questions : List QuizQuestion)
    (userAnswers : List (Nat × Nat)) : Option Nat :=
  if userAnswers.length = questions.length then
    some (computeScore 0 questions userAnswers)
  else
    none

/-- Whether question number `i` (0-based, offset by `j`) was answered
correctly: the question at index `i` exists and the recorded answer at key
`j + i` equals its correct-option index. -/
def hitAt (questions : List QuizQuestion) (userAnswers : List (Nat × Nat))
    (j i : Nat) : Bool :=
  match questions.get? i with
  | some q => decide (ansLookup userAnswers (j + i) = some q.correctAnswer)
  | none => false

/-- Claim-side score: the number of question indices at which the user's
selected option index equals that question's correct-answer index. -/
def scoreSpec (questions : List QuizQuestion)
    (userAnswers : List (Nat × Nat)) : Nat :=
  ((List.range questions.length).filter (hitAt questions userAnswers 0)).length

end QuizUI

namespace Rag

/-- Modelled from the spec: the Passage entity (spec section 3) of the missing
backend pipeline.  A passage's text is abstracted as its token sequence, so a
token count is a list length; `chapter_id`, `section_title` and `position` are
the provenance metadata required for citation. -/
structure Passage where
  id : String
  text : List String
  chapter_id : String
  section_title : String
  position : Nat
deriving DecidableEq

/-- Modelled from the spec: one element of a RetrievalResult, a passage
reference paired with its similarity score (spec section 3). -/
structure ScoredPassage where
  passage : Passage
  score : Rat
deriving DecidableEq

/-- Modelled from the spec: the Retriever contract (spec 4.1) of the missing
backend `retrieve`.  The Chunk Store is abstracted as a score-descending list
of scored passages; results below `threshold` are filtered out and the rest
truncated to `top_k`.  An empty result is a normal outcome, not an error. -/
def retrieve (store : List ScoredPassage) (top_k : Nat) (threshold : Rat) :
    List ScoredPassage :=
  (store.filter (fun p => decide (threshold ≤ p.score))).take top_k

/-- Provenance of one block of an AssembledContext: the prioritized
selected-text block, or a retrieved passage carrying its citation metadata. -/
inductive BlockSource
  | selected
  | retrieved (chapter_id : String) (section_title : String)
deriving DecidableEq

/-- One block of an AssembledContext: its provenance plus its token sequence. -/
structure Block where
  source : BlockSource
  tokens : List String
deriving DecidableEq

/-- Modelled from the spec: the AssembledContext entity (spec section 3), an
ordered sequence of blocks (optional prioritized selected-text block first,
then passage texts). -/
structure AssembledContext where
  blocks : List Block
deriving DecidableEq

/-- Token count of an AssembledContext: the sum of its blocks' token counts. -/
def AssembledContext.token_count (c : AssembledContext) : Nat :=
  (c.blocks.map (fun b => b.tokens.length)).sum

/-- Citation pairs available in an AssembledContext: the
`(chapter_id, section_title)` of every retrieved-passage block. -/
def AssembledContext.citationPairs (c : AssembledContext) :
    List (String × String) :=
  c.blocks.filterMap (fun b =>
    match b.source with
    | BlockSource.retrieved ch sec => some (ch, sec)
    | BlockSource.selected => none)

/-- Modelled from the spec: deduplication of passages with identical
`chapter_id + position` (spec 4.2), keeping the first (highest-scoring)
occurrence. `seen` accumulates the keys already kept. -/
def dedupPassages (seen : List (String × Nat)) :
    List Passage → List Passage
  | [] => []
  | p :: ps =>
    if (p.chapter_id, p.position) ∈ seen then
      dedupPassages seen ps
    else
      p :: dedupPassages ((p.chapter_id, p.position) :: seen) ps

/-- Modelled from the spec: greedy packing of passages (spec 4.2): passages are
appended in score-descending order until adding the next passage would exceed
the budget; partial passages are never included (all-or-nothing per passage).
`used` is the token count already consumed. -/
def packPassages (budget : Nat) (used : Nat) :
    List Passage → List Passage
  | [] => []
  | p :: ps =>
    if used + p.text.length ≤ budget then
      p :: packPassages budget (used + p.text.length) ps
    else
      []

/-- The context block derived from a retrieved passage. -/
def passageBlock (p : Passage) : Block :=
  ⟨BlockSource.retrieved p.chapter_id p.section_title, p.text⟩

/-- Modelled from the spec: the Context Assembler contract (spec 4.2) of the
missing backend `assemble`.  A present (non-empty) `selected_text` is placed
first and is never truncated unless it alone exceeds `budget_tokens`, in which
case it is truncated to the budget and all retrieval results are dropped;
otherwise retrieved passages (deduplicated on `chapter_id + position`) are
packed greedily, in the retrieval order, into the remaining budget.  An empty
or absent `selected_text` is treated as absent. -/
def assemble (retrieval : List ScoredPassage)
    (selected_text : Option (List String)) (budget_tokens : Nat) :
    AssembledContext :=
  let passages := dedupPassages [] (retrieval.map (fun sp => sp.passage))
  match selected_text with
  | some sel =>
    if sel.isEmpty then
      ⟨(packPassages budget_tokens 0 passages).map passageBlock⟩
    else if budget_tokens < sel.length then
      ⟨[⟨BlockSource.selected, sel.take budget_tokens⟩]⟩
    else
      ⟨⟨BlockSource.selected, sel⟩
        :: (packPassages budget_tokens sel.length passages).map passageBlock⟩
  | none => ⟨(packPassages budget_tokens 0 passages).map passageBlock⟩

/-- Grounded classification of an Answer (spec section 3): `answered`, or the
explicit refusal for insufficient context. -/
inductive Grounded
  | answered
  | refusedInsufficientContext
deriving DecidableEq

/-- Modelled from the spec: the Answer entity (spec section 3): answer text,
citations as `(chapter_id, section_title)` pairs, and the grounded
classification. -/
structure Answer where
  text : String
  citations : List (String × String)
  grounded : Grounded
deriving DecidableEq

/-- Modelled from the spec: the parsed raw response of the generation backend
(spec 4.3 and section 9): a strict `text` plus `citations` shape, together
with whether the model emitted its recognizable insufficient-context signal. -/
structure RawModelAnswer where
  text : String
  citations : List (String × String)
  insufficientSignal : Bool
deriving DecidableEq

/-- Modelled from the spec: the fixed, deterministic fallback refusal text the
Answerer returns without calling the model when the context is empty. -/
def fallbackRefusalText : String :=
  "I could not find information about this in the textbook."

/-- The deterministic refusal Answer built from `fallbackRefusalText`. -/
def fallbackRefusal : Answer :=
  ⟨fallbackRefusalText, [], Grounded.refusedInsufficientContext⟩

/-- Modelled from the spec: response validation of the Grounded Answerer
(spec 4.3): every citation not traceable to a `(chapter_id, section_title)`
pair present in the context is stripped; if the model signalled insufficient
context, or no valid citation remains, the answer is downgraded to
`refused-insufficient-context`. -/
def validateAnswer (context : AssembledContext) (raw : RawModelAnswer) :
    Answer :=
  if raw.insufficientSignal then
    ⟨raw.text, [], Grounded.refusedInsufficientContext⟩
  else
    let valid := raw.citations.filter (fun c => decide (c ∈ context.citationPairs))
    if valid.isEmpty then
      ⟨raw.text, [], Grounded.refusedInsufficientContext⟩
    else
      ⟨raw.text, valid, Grounded.answered⟩

/-- Modelled from the spec: the Grounded Answerer contract (spec 4.3) of the
missing backend `answer`.  The generation backend is abstracted as a function
`gen`; the result pairs the produced Answer with the number of generation
calls made.  On an empty context the Answerer short-circuits: it returns the
deterministic fallback refusal and never invokes `gen`. -/
def answer (gen : AssembledContext → String → RawModelAnswer)
    (context : AssembledContext) (question : String) : Answer × Nat :=
  if context.blocks.isEmpty then
    (fallbackRefusal, 0)
  else
    (validateAnswer context (gen context question), 1)

end Rag

namespace Governor

/-- Kinds of rate-limited requests (spec 4.4): questions per hour,
personalizations per day, Urdu chapter renderings per day. -/
inductive Kind
  | question
  | personalize
  | translate
deriving DecidableEq

/-- Modelled from the spec: default per-user limits (spec 4.4): 20 questions
per hour, 5 personalizations per day, 5 translations per day. -/
def Kind.limit : Kind → Nat
  | Kind.question => 20
  | Kind.personalize => 5
  | Kind.translate => 5

/-- Window length in seconds per kind: one hour for questions, one day for the
other kinds. -/
def Kind.windowSeconds : Kind → Nat
  | Kind.question => 3600
  | Kind.personalize => 86400
  | Kind.translate => 86400

/-- Admission decision of the Rate Governor: allowed, or denied with a
computed `retry_after` duration in seconds. -/
inductive Decision
  | allowed
  | denied (retry_after : Nat)
deriving DecidableEq

/-- Governor state: per `(user, kind)` counters holding the window start time
and the request count inside the window, as an association list. -/
def GovState : Type := List ((String × Kind) × (Nat × Nat))

/-- The empty governor state: no counters recorded. -/
def GovState.empty : GovState := []

/-- Counter lookup in the governor state. -/
def lookupCounter : GovState → String × Kind → Option (Nat × Nat)
  | [], _ => none
  | (k, v) :: rest, key => if k = key then some v else lookupCounter rest key

/-- Counter update: the new value replaces any previous entry for the key
(state keeps at most one counter per key). -/
def setCounter (st : GovState) (key : String × Kind) (v : Nat × Nat) :
    GovState :=
  (key, v) :: st.filter (fun e => decide (e.1 ≠ key))

/-- Modelled from the spec: the Rate Governor admission check (spec 4.4) of
the missing backend rate limiter.  Fixed windows per `(user, kind)`: a first
request (or a request after the window rolled over) starts a fresh window with
count 1; within a live window, requests are admitted while the count is below
the kind's limit, and denied otherwise with
`retry_after = window_start + window_length - now` (the time until rollover),
counters never being reset retroactively. -/
def admitRequest (st : GovState) (user : String) (kind : Kind) (now : Nat) :
    Decision × GovState :=
  match lookupCounter st (user, kind) with
  | none => (Decision.allowed, setCounter st (user, kind) (now, 1))
  | some (ws, c) =>
    if ws + kind.windowSeconds ≤ now then
      (Decision.allowed, setCounter st (user, kind) (now, 1))
    else if c < kind.limit then
      (Decision.allowed, setCounter st (user, kind) (ws, c + 1))
    else
      (Decision.denied (ws + kind.windowSeconds - now), st)

/-- Process a sequence of admission requests (same user and kind, given
timestamps), returning the decisions in order and the final state. -/
def admitRun (st : GovState) (user : String) (kind : Kind) :
    List Nat → List Decision × GovState
  | [] => ([], st)
  | t :: ts =>
    let step := admitRequest st user kind t
    let rest := admitRun step.2 user kind ts
    (step.1 :: rest.1, rest.2)

end Governor

namespace Cache

/-- The Response Cache store (spec 4.5), keyed by fingerprint, holding cached
Answers; the relational backing (the cache tables of
`src/backend/scripts/init_db.sql`, whose UNIQUE key constraints enforce one
row per key) is embedded as an association list. -/
def Store : Type := List (String × Rag.Answer)

/-- The empty cache. -/
def Store.empty : Store := []

/-- Cache lookup by fingerprint: `get(fingerprint) -> Answer | Miss`. -/
def cacheGet : Store → String → Option Rag.Answer
  | [], _ => none
  | (g, a) :: rest, f => if g = f then some a else cacheGet rest f

/-- Remove every entry stored under a fingerprint. -/
def cacheErase : Store → String → Store
  | [], _ => []
  | (g, a) :: rest, f =>
    if g = f then cacheErase rest f else (g, a) :: cacheErase rest f

/-- Modelled from the spec: `put(fingerprint, Answer)` (spec 4.5) of the
missing backend cache logic, as insert-or-overwrite (last writer wins),
matching the UNIQUE-keyed upsert of the schema's cache tables. -/
def cachePut (st : Store) (f : String) (a : Rag.Answer) : Store :=
  (f, a) :: cacheErase st f

/-- Number of entries stored under a fingerprint. -/
def keyCount : Store → String → Nat
  | [], _ => 0
  | (g, _) :: rest, f => (if g = f then 1 else 0) + keyCount rest f

end Cache

namespace Samples

/-- Sample quiz question used to instantiate the quiz theorems. -/
def sampleQuestion : QuizUI.QuizQuestion := ⟨"q", ["a", "b"], 0, "e"⟩

/-- Sample quiz of five questions. -/
def sampleQuizQuestions : List QuizUI.QuizQuestion :=
  List.replicate 5 sampleQuestion

/-- Sample recorded answers: correct on questions 0, 2 and 3 only. -/
def sampleQuizAnswers : List (Nat × Nat) :=
  [(0, 0), (1, 1), (2, 0), (3, 0), (4, 1)]

/-- Sample passage with full provenance metadata. -/
def samplePassage : Rag.Passage :=
  ⟨"p1", ["tok1", "tok2"], "neural-networks", "Backpropagation", 0⟩

/-- Sample retrieval result holding one scored passage. -/
def sampleRetrieval : List Rag.ScoredPassage := [⟨samplePassage, 1⟩]

/-- Sample assembled context with one retrieved block. -/
def sampleCtx : Rag.AssembledContext :=
  ⟨[⟨Rag.BlockSource.retrieved "neural-networks" "Backpropagation", ["tok1"]⟩]⟩

/-- Sample generation backend returning one citation traceable to
`sampleCtx`. -/
def sampleGen : Rag.AssembledContext → String → Rag.RawModelAnswer :=
  fun _ _ => ⟨"ans", [("neural-networks", "Backpropagation")], false⟩

end Samples

/-- C6 counterexample: the request body `api.chat` actually sends carries the
field `conversation_id`, which is not among the spec's claimed ask-operation
fields (question, selected_text, user_id, chapter_scope); at the concrete call
`chat("q")` at time 0 the claimed interface shape is violated. -/
theorem ask_contract_counterexample :
    ¬ (∀ fld ∈ (Frontend.chatRequestJson "q" none 0).map Prod.fst,
        fld ∈ Frontend.specAskRequestFields) := by
  decide

/-- C6 (amended): the inbound chat call accepts a question and an optional
conversation id; the request body it issues contains exactly the fields
`question` and `conversation_id`, with `conversation_id` defaulting to
"chat-" followed by the current timestamp, and a response is returned as its
parsed body when ok, or raised as an error carrying the `detail` field
(defaulting to "Chat request failed") otherwise. -/
theorem chat_request_shape (q : String) (cid : Option String) (now : Nat)
    (ok : Bool) (body : String) (d : Option String) :
    (Frontend.chatRequestJson q cid now).map Prod.fst
        = ["question", "conversation_id"] ∧
    Frontend.chatRequestJson q cid now
        = [("question", q),
           ("conversation_id", cid.getD ("chat-" ++ toString now))] ∧
    Frontend.chatResult ok body d
        = (if ok then Except.ok body
           else Except.error (d.getD "Chat request failed")) :=
  ⟨rfl, rfl, rfl⟩

/-- C8: the ChatBot form submission issues a request to the chat endpoint only
when the question is non-empty after trimming: whenever `chatSubmit` sends a
request, the sent text is the question itself and its trimmed form is
non-empty, establishing the retriever's `query_text` precondition at the
public interface. -/
theorem chat_submit_trimmed_nonempty (q r : String)
    (h : Frontend.chatSubmit q = some r) :
    r = q ∧ Frontend.jsTrim r ≠ "" := by
  unfold Frontend.chatSubmit at h
  by_cases hq : Frontend.jsTrim q = ""
  · rw [if_pos hq] at h
    exact absurd h (by simp)
  · rw [if_neg hq] at h
    have hrq : q = r := by injection h
    subst hrq
    exact ⟨rfl, hq⟩

/-- Witness for C8: submitting the question "hi" issues a request whose text
is non-empty after trimming. -/
theorem chat_submit_trimmed_nonempty_witness :
    ("hi" : String) = "hi" ∧ Frontend.jsTrim "hi" ≠ "" :=
  chat_submit_trimmed_nonempty "hi" "hi" (by decide)

/-- C9: the Quiz component throws exactly when the number of supplied
questions lies outside the closed interval [5, 10]: rendering proceeds for
every list of length between 5 and 10 inclusive, and the component raises
(before rendering any question) for every shorter or longer list. -/
theorem quiz_question_count_validation (qs : List QuizUI.QuizQuestion) :
    (∃ msg, QuizUI.quizInit qs = Except.error msg)
      ↔ (qs.length < 5 ∨ 10 < qs.length) := by
  unfold QuizUI.quizInit
  by_cases h : qs.length < 5 ∨ 10 < qs.length
  · rw [if_pos h]
    exact ⟨fun _ => h, fun _ => ⟨_, rfl⟩⟩
  · rw [if_neg h]
    exact ⟨fun ⟨_, hmsg⟩ => absurd hmsg (by simp), fun hc => absurd hc h⟩

/-- Witness for C9: a five-question quiz does not raise the count-validation
error. -/
theorem quiz_question_count_validation_witness :
    ¬ (∃ msg, QuizUI.quizInit Samples.sampleQuizQuestions
        = Except.error msg) :=
  fun hex =>
    absurd ((quiz_question_count_validation Samples.sampleQuizQuestions).mp hex)
      (by decide)

/-- Helper: the quiz component's imperative score loop, started at offset `j`,
counts exactly the indices of the remaining questions whose recorded answer
matches the correct option. -/
theorem QuizUI.computeScore_eq (ans : List (Nat × Nat)) :
    ∀ (qs : List QuizUI.QuizQuestion) (j : Nat),
      QuizUI.computeScore j qs ans
        = ((List.range qs.length).filter (QuizUI.hitAt qs ans j)).length := by
  intro qs
  induction qs with
  | nil =>
    intro j
    simp [QuizUI.computeScore]
  | cons q qs ih =>
    intro j
    have hstep : QuizUI.computeScore j (q :: qs) ans
        = (if QuizUI.ansLookup ans j = some q.correctAnswer then 1 else 0)
          + QuizUI.computeScore (j + 1) qs ans := rfl
    have hhead : QuizUI.hitAt (q :: qs) ans j 0
        = decide (QuizUI.ansLookup ans j = some q.correctAnswer) := rfl
    have htail : ∀ i ∈ List.range qs.length,
        (QuizUI.hitAt (q :: qs) ans j ∘ Nat.succ) i
          = QuizUI.hitAt qs ans (j + 1) i := by
      intro i _
      have harith : j + (i + 1) = j + 1 + i := by omega
      show QuizUI.hitAt (q :: qs) ans j (i + 1) = QuizUI.hitAt qs ans (j + 1) i
      unfold QuizUI.hitAt
      simp only [List.get?_cons_succ, harith]
    have hlen : (q :: qs).length = qs.length + 1 := rfl
    rw [hstep, ih (j + 1), hlen, List.range_succ_eq_map, List.filter_cons,
      hhead, List.filter_map Nat.succ (List.range qs.length),
      List.filter_congr htail]
    by_cases hc : QuizUI.ansLookup ans j = some q.correctAnswer
    · simp [hc]
      omega
    · simp [hc]

/-- C10: a quiz submission is scored only when the number of recorded answers
equals the number of displayed questions, and the computed score then equals
the number of question indices at which the user's selected option index
equals that question's correct-answer index; consequently the score never
exceeds the number of questions. -/
theorem quiz_score_correct (qs : List QuizUI.QuizQuestion)
    (ans : List (Nat × Nat)) (s : Nat)
    (h : QuizUI.quizHandleSubmit qs ans = some s) :
    ans.length = qs.length ∧ s = QuizUI.scoreSpec qs ans ∧ s ≤ qs.length := by
  unfold QuizUI.quizHandleSubmit at h
  by_cases hl : ans.length = qs.length
  · rw [if_pos hl] at h
    have hs : QuizUI.computeScore 0 qs ans = s := by injection h
    refine ⟨hl, ?_, ?_⟩
    · rw [← hs, QuizUI.computeScore_eq]
      rfl
    · rw [← hs, QuizUI.computeScore_eq]
      calc ((List.range qs.length).filter (QuizUI.hitAt qs ans 0)).length
          ≤ (List.range qs.length).length := List.length_filter_le _ _
        _ = qs.length := List.length_range qs.length
  · rw [if_neg hl] at h
    exact absurd h (by simp)

/-- Witness for C10: the sample submission (five questions, five recorded
answers, three of them correct) is scored 3 by the component, matching the
claim-side count and bounded by the question count. -/
theorem quiz_score_correct_witness :
    Samples.sampleQuizAnswers.length = Samples.sampleQuizQuestions.length ∧
    3 = QuizUI.scoreSpec Samples.sampleQuizQuestions Samples.sampleQuizAnswers ∧
    3 ≤ Samples.sampleQuizQuestions.length :=
  quiz_score_correct Samples.sampleQuizQuestions Samples.sampleQuizAnswers 3
    (by decide)

/-- C3: given a non-empty selected_text, the assembled context's first block
is always derived from selected_text regardless of the retrieval result; the
selected text is untruncated whenever it fits the budget, and when it alone
exceeds the budget it is truncated to the budget and every retrieved passage
is dropped from the context. -/
theorem selected_text_precedence (r : List Rag.ScoredPassage)
    (sel : List String) (budget : Nat) (hsel : sel ≠ []) :
    ((Rag.assemble r (some sel) budget).blocks.head?
        = some ⟨Rag.BlockSource.selected,
            if budget < sel.length then sel.take budget else sel⟩) ∧
    (sel.length ≤ budget →
      (Rag.assemble r (some sel) budget).blocks.head?
          = some ⟨Rag.BlockSource.selected, sel⟩) ∧
    (budget < sel.length →
      Rag.assemble r (some sel) budget
          = ⟨[⟨Rag.BlockSource.selected, sel.take budget⟩]⟩) := by
  have hne : sel.isEmpty = false := by
    cases sel with
    | nil => exact absurd rfl hsel
    | cons a l => rfl
  have hassemble : Rag.assemble r (some sel) budget
      = if budget < sel.length then
          (⟨[⟨Rag.BlockSource.selected, sel.take budget⟩]⟩ :
            Rag.AssembledContext)
        else
          ⟨⟨Rag.BlockSource.selected, sel⟩
            :: (Rag.packPassages budget sel.length
                (Rag.dedupPassages []
                  (r.map (fun sp => sp.passage)))).map Rag.passageBlock⟩ := by
    unfold Rag.assemble
    simp [hne]
  by_cases hb : budget < sel.length
  · rw [hassemble, if_pos hb]
    refine ⟨by simp [hb], fun hle => absurd hb (by omega), fun _ => rfl⟩
  · rw [hassemble, if_neg hb]
    exact ⟨by simp [hb], fun _ => rfl, fun hlt => absurd hlt hb⟩

/-- Witness for C3: assembling with selected text ["tok"] under budget 10
places the untruncated selected-text block first. -/
theorem selected_text_precedence_witness :
    (Rag.assemble Samples.sampleRetrieval (some ["tok"]) 10).blocks.head?
      = some ⟨Rag.BlockSource.selected, ["tok"]⟩ :=
  (selected_text_precedence Samples.sampleRetrieval ["tok"] 10
    (by decide)).2.1 (by decide)

/-- C4: assembly is deterministic; two calls to assemble with identical
retrieval result, selected text and token budget produce identical
AssembledContext values. -/
theorem assemble_deterministic (r₁ r₂ : List Rag.ScoredPassage)
    (s₁ s₂ : Option (List String)) (b₁ b₂ : Nat)
    (hr : r₁ = r₂) (hs : s₁ = s₂) (hb : b₁ = b₂) :
    Rag.assemble r₁ s₁ b₁ = Rag.assemble r₂ s₂ b₂ := by
  subst hr
  subst hs
  subst hb
  rfl

/-- Witness for C4: two assemblies of the sample retrieval with identical
inputs coincide. -/
theorem assemble_deterministic_witness :
    Rag.assemble Samples.sampleRetrieval (some ["tok"]) 10
      = Rag.assemble Samples.sampleRetrieval (some ["tok"]) 10 :=
  assemble_deterministic Samples.sampleRetrieval Samples.sampleRetrieval
    (some ["tok"]) (some ["tok"]) 10 10 rfl rfl rfl

/-- C1: every Answer the Grounded Answerer classifies `answered` carries only
citations whose (chapter_id, section_title) pair occurs in the supplied
context; on a non-empty context, when the model did not signal insufficiency,
the produced citations are exactly the raw citations with the untraceable
ones stripped, and when no valid citation remains the answer is downgraded to
`refused-insufficient-context`. -/
theorem grounding_invariant
    (gen : Rag.AssembledContext → String → Rag.RawModelAnswer)
    (ctx : Rag.AssembledContext) (q : String) :
    ((Rag.answer gen ctx q).1.grounded = Rag.Grounded.answered →
        ∀ c ∈ (Rag.answer gen ctx q).1.citations, c ∈ ctx.citationPairs) ∧
    (ctx.blocks.isEmpty = false → (gen ctx q).insufficientSignal = false →
        ((Rag.answer gen ctx q).1.citations
            = (gen ctx q).citations.filter
                (fun c => decide (c ∈ ctx.citationPairs)) ∧
          (((gen ctx q).citations.filter
              (fun c => decide (c ∈ ctx.citationPairs))).isEmpty = true →
            (Rag.answer gen ctx q).1.grounded
              = Rag.Grounded.refusedInsufficientContext))) := by
  by_cases hemp : ctx.blocks.isEmpty = true
  · have hA : Rag.answer gen ctx q = (Rag.fallbackRefusal, 0) := by
      unfold Rag.answer
      rw [if_pos hemp]
    rw [hA]
    refine ⟨fun hg => Rag.Grounded.noConfusion hg, fun hf => ?_⟩
    exact Bool.noConfusion (hf.symm.trans hemp)
  · have hA : Rag.answer gen ctx q
        = (Rag.validateAnswer ctx (gen ctx q), 1) := by
      unfold Rag.answer
      rw [if_neg hemp]
    rw [hA]
    by_cases hsig : (gen ctx q).insufficientSignal = true
    · have hV : Rag.validateAnswer ctx (gen ctx q)
          = ⟨(gen ctx q).text, [], Rag.Grounded.refusedInsufficientContext⟩ := by
        unfold Rag.validateAnswer
        rw [if_pos hsig]
      rw [hV]
      refine ⟨fun hg => Rag.Grounded.noConfusion hg, fun _ hnsig => ?_⟩
      exact Bool.noConfusion (hsig.symm.trans hnsig)
    · have hsig' : (gen ctx q).insufficientSignal = false := by
        cases h : (gen ctx q).insufficientSignal with
        | true => exact absurd h hsig
        | false => rfl
      by_cases hvv : ((gen ctx q).citations.filter
          (fun c => decide (c ∈ ctx.citationPairs))).isEmpty = true
      · have hV : Rag.validateAnswer ctx (gen ctx q)
            = ⟨(gen ctx q).text, [],
                Rag.Grounded.refusedInsufficientContext⟩ := by
          unfold Rag.validateAnswer
          rw [if_neg hsig]
          simp only [hvv, if_true]
        rw [hV]
        refine ⟨fun hg => Rag.Grounded.noConfusion hg,
          fun _ _ => ⟨?_, fun _ => rfl⟩⟩
        exact ((List.isEmpty_iff).mp hvv).symm
      · have hvv' : ((gen ctx q).citations.filter
            (fun c => decide (c ∈ ctx.citationPairs))).isEmpty = false := by
          cases h : ((gen ctx q).citations.filter
              (fun c => decide (c ∈ ctx.citationPairs))).isEmpty with
          | true => exact absurd h hvv
          | false => rfl
        have hV : Rag.validateAnswer ctx (gen ctx q)
            = ⟨(gen ctx q).text,
                (gen ctx q).citations.filter
                  (fun c => decide (c ∈ ctx.citationPairs)),
                Rag.Grounded.answered⟩ := by
          unfold Rag.validateAnswer
          rw [if_neg hsig]
          simp only [hvv', Bool.false_eq_true, if_false]
        rw [hV]
        refine ⟨fun _ c hc => of_decide_eq_true (List.mem_filter.mp hc).2,
          fun _ _ => ⟨rfl, fun hve => Bool.noConfusion (hvv'.symm.trans hve)⟩⟩

/-- Witness for C1: on the sample context, the sample backend's single
traceable citation is kept verbatim by validation. -/
theorem grounding_invariant_witness :
    (Rag.answer Samples.sampleGen Samples.sampleCtx "q").1.citations
      = (Samples.sampleGen Samples.sampleCtx "q").citations.filter
          (fun c => decide (c ∈ Samples.sampleCtx.citationPairs)) :=
  ((grounding_invariant Samples.sampleGen Samples.sampleCtx "q").2
    (by decide) (by decide)).1

/-- C2: when no stored passage clears the threshold the Retriever returns the
empty result, the assembled context is empty, and the Answerer short-circuits
with the fixed deterministic fallback refusal while the generation backend is
invoked zero times. -/
theorem empty_retrieval_refusal (store : List Rag.ScoredPassage) (k : Nat)
    (th : Rat) (gen : Rag.AssembledContext → String → Rag.RawModelAnswer)
    (q : String) (budget : Nat)
    (h : ∀ p ∈ store, p.score < th) :
    Rag.retrieve store k th = [] ∧
    Rag.answer gen (Rag.assemble (Rag.retrieve store k th) none budget) q
        = (Rag.fallbackRefusal, 0) ∧
    (Rag.answer gen (Rag.assemble (Rag.retrieve store k th) none budget) q).2
        = 0 ∧
    (Rag.answer gen
        (Rag.assemble (Rag.retrieve store k th) none budget) q).1.text
        = Rag.fallbackRefusalText ∧
    (Rag.answer gen
        (Rag.assemble (Rag.retrieve store k th) none budget) q).1.grounded
        = Rag.Grounded.refusedInsufficientContext := by
  have hr : Rag.retrieve store k th = [] := by
    unfold Rag.retrieve
    have hf : store.filter (fun p => decide (th ≤ p.score)) = [] := by
      rw [List.filter_eq_nil_iff]
      intro p hp
      simp only [decide_eq_true_eq]
      exact not_le.mpr (h p hp)
    rw [hf, List.take_nil]
  rw [hr]
  exact ⟨rfl, rfl, rfl, rfl, rfl⟩

/-- Witness for C2: with threshold 2 nothing in the sample store (score 1)
is retrieved, and the pipeline returns the fixed refusal without any
generation call. -/
theorem empty_retrieval_refusal_witness :
    Rag.retrieve Samples.sampleRetrieval 5 2 = [] ∧
    Rag.answer Samples.sampleGen
        (Rag.assemble (Rag.retrieve Samples.sampleRetrieval 5 2) none 100) "w"
        = (Rag.fallbackRefusal, 0) ∧
    (Rag.answer Samples.sampleGen
        (Rag.assemble (Rag.retrieve Samples.sampleRetrieval 5 2) none 100)
        "w").2 = 0 ∧
    (Rag.answer Samples.sampleGen
        (Rag.assemble (Rag.retrieve Samples.sampleRetrieval 5 2) none 100)
        "w").1.text = Rag.fallbackRefusalText ∧
    (Rag.answer Samples.sampleGen
        (Rag.assemble (Rag.retrieve Samples.sampleRetrieval 5 2) none 100)
        "w").1.grounded = Rag.Grounded.refusedInsufficientContext :=
  empty_retrieval_refusal Samples.sampleRetrieval 5 2 Samples.sampleGen "w" 100
    (by decide)

/-- Helper: a counter just written is the one read back. -/
theorem Governor.lookup_set (st : Governor.GovState)
    (key : String × Governor.Kind) (v : Nat × Nat) :
    Governor.lookupCounter (Governor.setCounter st key v) key = some v := by
  simp [Governor.setCounter, Governor.lookupCounter]

/-- Helper: starting from a live counter `(t0, j)`, a run of requests whose
times all lie before the window's end and whose count keeps the total within
the limit is entirely admitted, and the counter ends at `(t0, j + length)`. -/
theorem Governor.admitRun_window (u : String) (k : Governor.Kind) :
    ∀ (ts : List Nat) (st : Governor.GovState) (t0 j : Nat),
      Governor.lookupCounter st (u, k) = some (t0, j) →
      (∀ t ∈ ts, t < t0 + k.windowSeconds) →
      j + ts.length ≤ k.limit →
      (∀ d ∈ (Governor.admitRun st u k ts).1,
          d = Governor.Decision.allowed) ∧
      Governor.lookupCounter (Governor.admitRun st u k ts).2 (u, k)
          = some (t0, j + ts.length) := by
  intro ts
  induction ts with
  | nil =>
    intro st t0 j hst _ _
    exact ⟨by simp [Governor.admitRun], by simpa [Governor.admitRun] using hst⟩
  | cons t ts ih =>
    intro st t0 j hst hin hlim
    have hnroll : ¬ (t0 + k.windowSeconds ≤ t) := by
      have ht := hin t (List.mem_cons_self t ts)
      omega
    have hj : j < k.limit := by
      simp only [List.length_cons] at hlim
      omega
    have hstep : Governor.admitRequest st u k t
        = (Governor.Decision.allowed,
            Governor.setCounter st (u, k) (t0, j + 1)) := by
      unfold Governor.admitRequest
      rw [hst]
      simp [hnroll, hj]
    have hnext := ih (Governor.setCounter st (u, k) (t0, j + 1)) t0 (j + 1)
      (Governor.lookup_set st (u, k) (t0, j + 1))
      (fun t' ht' => hin t' (List.mem_cons_of_mem t ht'))
      (by simp only [List.length_cons] at hlim ⊢; omega)
    have hrun : Governor.admitRun st u k (t :: ts)
        = (Governor.Decision.allowed
            :: (Governor.admitRun
                (Governor.setCounter st (u, k) (t0, j + 1)) u k ts).1,
           (Governor.admitRun
                (Governor.setCounter st (u, k) (t0, j + 1)) u k ts).2) := by
      simp [Governor.admitRun, hstep]
    constructor
    · intro d hd
      rw [hrun] at hd
      rcases List.mem_cons.mp hd with h1 | h2
      · exact h1
      · exact hnext.1 d h2
    · rw [hrun]
      have h2 := hnext.2
      have harith : j + 1 + ts.length = j + (t :: ts).length := by
        simp only [List.length_cons]
        omega
      rw [harith] at h2
      exact h2

/-- C5: with the configured question limit N (default 20 per hour), a user's
first N requests inside one window are all admitted and the (N+1)th request
in the same window is denied with a strictly positive retry_after. -/
theorem rate_limit_boundary (u : String) (t0 : Nat) (ts : List Nat)
    (tNext : Nat)
    (hlen : ts.length = Governor.Kind.question.limit - 1)
    (hin : ∀ t ∈ ts,
      t0 ≤ t ∧ t < t0 + Governor.Kind.question.windowSeconds)
    (hNext : t0 ≤ tNext ∧
      tNext < t0 + Governor.Kind.question.windowSeconds) :
    (∀ d ∈ (Governor.admitRun Governor.GovState.empty u
        Governor.Kind.question (t0 :: ts)).1,
        d = Governor.Decision.allowed) ∧
    (∃ r, 0 < r ∧
      (Governor.admitRequest
        (Governor.admitRun Governor.GovState.empty u Governor.Kind.question
          (t0 :: ts)).2 u Governor.Kind.question tNext).1
        = Governor.Decision.denied r) := by
  have hstep0 : Governor.admitRequest Governor.GovState.empty u
      Governor.Kind.question t0
      = (Governor.Decision.allowed,
          Governor.setCounter Governor.GovState.empty
            (u, Governor.Kind.question) (t0, 1)) := rfl
  have hrun := Governor.admitRun_window u Governor.Kind.question ts
    (Governor.setCounter Governor.GovState.empty
      (u, Governor.Kind.question) (t0, 1)) t0 1
    (Governor.lookup_set _ _ _)
    (fun t ht => (hin t ht).2)
    (by rw [hlen]; decide)
  have hconsRun : Governor.admitRun Governor.GovState.empty u
      Governor.Kind.question (t0 :: ts)
      = (Governor.Decision.allowed
          :: (Governor.admitRun
              (Governor.setCounter Governor.GovState.empty
                (u, Governor.Kind.question) (t0, 1)) u
              Governor.Kind.question ts).1,
         (Governor.admitRun
              (Governor.setCounter Governor.GovState.empty
                (u, Governor.Kind.question) (t0, 1)) u
              Governor.Kind.question ts).2) := by
    simp [Governor.admitRun, hstep0]
  constructor
  · intro d hd
    rw [hconsRun] at hd
    rcases List.mem_cons.mp hd with h1 | h2
    · exact h1
    · exact hrun.1 d h2
  · have hfin : Governor.lookupCounter
        (Governor.admitRun Governor.GovState.empty u Governor.Kind.question
          (t0 :: ts)).2 (u, Governor.Kind.question)
        = some (t0, 1 + ts.length) := by
      rw [hconsRun]
      exact hrun.2
    have hcount : 1 + ts.length = Governor.Kind.question.limit := by
      rw [hlen]
      decide
    have hnroll :
        ¬ (t0 + Governor.Kind.question.windowSeconds ≤ tNext) := by
      have := hNext.2
      omega
    refine ⟨t0 + Governor.Kind.question.windowSeconds - tNext, ?_, ?_⟩
    · have := hNext.2
      omega
    · unfold Governor.admitRequest
      rw [hfin]
      simp [hnroll, hcount]

/-- Witness for C5: twenty questions by one user at time 0 are all admitted
and the twenty-first at time 0 is denied. -/
theorem rate_limit_boundary_witness :
    ((Governor.admitRun Governor.GovState.empty "u" Governor.Kind.question
        (0 :: List.replicate 19 0)).1.all
        (fun d => decide (d = Governor.Decision.allowed)) = true) ∧
    (Governor.admitRequest (Governor.admitRun Governor.GovState.empty "u"
        Governor.Kind.question (0 :: List.replicate 19 0)).2 "u"
        Governor.Kind.question 0).1 ≠ Governor.Decision.allowed := by
  have h := rate_limit_boundary "u" 0 (List.replicate 19 0) 0 (by decide)
    (by decide) (by decide)
  constructor
  · rw [List.all_eq_true]
    intro d hd
    exact decide_eq_true (h.1 d hd)
  · obtain ⟨r, hr, hd⟩ := h.2
    rw [hd]
    exact fun hc => Governor.Decision.noConfusion hc

/-- Helper: erasing a fingerprint is idempotent. -/
theorem Cache.erase_erase (f : String) :
    ∀ st, Cache.cacheErase (Cache.cacheErase st f) f = Cache.cacheErase st f := by
  intro st
  induction st with
  | nil => rfl
  | cons e rest ih =>
    obtain ⟨g, a⟩ := e
    by_cases hg : g = f
    · simp [Cache.cacheErase, hg, ih]
    · simp [Cache.cacheErase, hg, ih]

/-- Helper: erasing a fingerprint leaves no entry under it. -/
theorem Cache.keyCount_erase_self (f : String) :
    ∀ st, Cache.keyCount (Cache.cacheErase st f) f = 0 := by
  intro st
  induction st with
  | nil => rfl
  | cons e rest ih =>
    obtain ⟨g, a⟩ := e
    by_cases hg : g = f
    · simp [Cache.cacheErase, hg, ih]
    · simp [Cache.cacheErase, Cache.keyCount, hg, ih]

/-- Helper: erasing one fingerprint never increases another's entry count. -/
theorem Cache.keyCount_erase_le (f' g : String) :
    ∀ st, Cache.keyCount (Cache.cacheErase st f') g ≤ Cache.keyCount st g := by
  intro st
  induction st with
  | nil => exact Nat.le_refl 0
  | cons e rest ih =>
    obtain ⟨k, a⟩ := e
    by_cases hk : k = f'
    · simp only [Cache.cacheErase, if_pos hk, Cache.keyCount]
      exact le_trans ih (Nat.le_add_left _ _)
    · simp only [Cache.cacheErase, if_neg hk, Cache.keyCount]
      exact Nat.add_le_add_left ih _

/-- Helper: a lookup at another fingerprint is unaffected by an erase. -/
theorem Cache.cacheGet_erase_ne (f f' : String) (h : f' ≠ f) :
    ∀ st, Cache.cacheGet (Cache.cacheErase st f') f = Cache.cacheGet st f := by
  intro st
  induction st with
  | nil => rfl
  | cons e rest ih =>
    obtain ⟨g, a⟩ := e
    by_cases hg : g = f'
    · have hgf : ¬ (g = f) := by
        rw [hg]
        exact h
      simp [Cache.cacheErase, hg, Cache.cacheGet, hgf, h, ih]
    · simp [Cache.cacheErase, hg, Cache.cacheGet, ih]

/-- C7: the cache keeps at most one entry per fingerprint and get after put is
a round-trip: a get of fingerprint f after put(f, a) returns exactly a — also
through later puts at other fingerprints — repeating the identical put leaves
the store unchanged, the put result holds exactly one entry under f, and a put
preserves the at-most-one-entry-per-key invariant. -/
theorem cache_roundtrip (st : Cache.Store) (f : String) (a : Rag.Answer) :
    Cache.cacheGet (Cache.cachePut st f a) f = some a ∧
    Cache.cachePut (Cache.cachePut st f a) f a = Cache.cachePut st f a ∧
    Cache.keyCount (Cache.cachePut st f a) f = 1 ∧
    (∀ f' a', f' ≠ f →
      Cache.cacheGet (Cache.cachePut (Cache.cachePut st f a) f' a') f
        = some a) ∧
    (∀ g, Cache.keyCount st g ≤ 1 →
      Cache.keyCount (Cache.cachePut st f a) g ≤ 1) := by
  refine ⟨?_, ?_, ?_, ?_, ?_⟩
  · simp [Cache.cachePut, Cache.cacheGet]
  · unfold Cache.cachePut
    congr 1
    simp [Cache.cacheErase, Cache.erase_erase]
  · simp [Cache.cachePut, Cache.keyCount, Cache.keyCount_erase_self]
  · intro f' a' hne
    have h1 : Cache.cacheGet (Cache.cachePut (Cache.cachePut st f a) f' a') f
        = Cache.cacheGet (Cache.cacheErase (Cache.cachePut st f a) f') f := by
      simp [Cache.cachePut, Cache.cacheGet, hne]
    rw [h1, Cache.cacheGet_erase_ne f f' hne]
    simp [Cache.cachePut, Cache.cacheGet]
  · intro g hg
    by_cases hgf : f = g
    · subst hgf
      simp [Cache.cachePut, Cache.keyCount, Cache.keyCount_erase_self]
    · simp only [Cache.cachePut, Cache.keyCount, if_neg hgf, Nat.zero_add]
      exact le_trans (Cache.keyCount_erase_le f g st) hg

/-- Witness for C7: a concrete put into the empty cache is read back both
immediately and after an unrelated put. -/
theorem cache_roundtrip_witness :
    Cache.cacheGet (Cache.cachePut Cache.Store.empty "f" Rag.fallbackRefusal)
        "f" = some Rag.fallbackRefusal ∧
    Cache.cacheGet
        (Cache.cachePut
          (Cache.cachePut Cache.Store.empty "f" Rag.fallbackRefusal)
          "g" Rag.fallbackRefusal) "f" = some Rag.fallbackRefusal := by
  have h := cache_roundtrip Cache.Store.empty "f" Rag.fallbackRefusal
  exact ⟨h.1, h.2.2.2.1 "g" Rag.fallbackRefusal (by decide)⟩
